import Mathlib

/-!
# YUView: the playlist item base class

A shallow embedding of `source/playlistItem.cpp`.  Member functions become
functions on an explicit `playlistItem` record; the Qt widgets the item owns are
part of that record, and the signal/slot connections of the spin boxes are
explicit lists of receivers.  A trace (`log`) records every slot invocation and
every emitted `signalItemChanged`.

C++ `int` values are integers (the file does no arithmetic on them apart from
`std::max`/`std::min`), the `unsigned int` counter wraps modulo `2^32`, and a
`double` is the rational number it denotes (the file only stores, prints and
parses doubles).
-/

namespace YUView

/-! ## Basic types -/

/-- A QString, as its list of characters. -/
abbrev QString := List Char

/-- The two kinds of playlist item named in the source. -/
inductive playlistItemType where
  | playlistItem_Indexed
  | playlistItem_Static
  deriving DecidableEq, Repr

open playlistItemType

/-- An `indexRange` is a pair of frame indices (`QPair<int,int>`). -/
structure indexRange where
  first : Int
  second : Int
  deriving DecidableEq, Repr

/-- The five spin boxes of the controls; a value of this type is also what
`QObject::sender()` returns inside a slot. -/
inductive Widget where
  | startSpinBox
  | endSpinBox
  | rateSpinBox
  | samplingSpinBox
  | durationSpinBox
  deriving DecidableEq, Repr

/-- The receiving end of a `valueChanged` connection: either this item's
`slotVideoControlChanged`, or a slot of some other object. -/
inductive Receiver where
  | slotVideoControlChanged
  | foreign (n : Nat)
  deriving DecidableEq, Repr

/-- What the trace records. -/
inductive Event where
  | slotVideoControlChangedCalled (sender : Widget)
  | foreignSlotCalled (sender : Widget) (n : Nat)
  | signalItemChanged (redraw : Bool) (cacheChanged : Bool)
  deriving DecidableEq, Repr

/-! ## Qt widgets -/

/-- A `QLabel`: only its visibility flag matters here. -/
structure QLabel where
  visible : Bool
  deriving DecidableEq, Repr

/-- A `QSpinBox`: range, value, visibility flag and the receivers connected to
`valueChanged(int)`, in connection order. -/
structure QSpinBox where
  minimum : Int
  maximum : Int
  value : Int
  visible : Bool
  valueChanged : List Receiver
  deriving DecidableEq, Repr

/-- A `QDoubleSpinBox`: as `QSpinBox`, with rational values and a number of
decimals. -/
structure QDoubleSpinBox where
  minimum : Rat
  maximum : Rat
  value : Rat
  decimals : Nat
  visible : Bool
  valueChanged : List Receiver
  deriving DecidableEq

namespace QSpinBox

/-- Qt's `QAbstractSpinBoxPrivate::bound` without wrapping. -/
def bound (sb : QSpinBox) (v : Int) : Int :=
  let v1 := if v < sb.minimum then sb.minimum else v
  if v1 > sb.maximum then sb.maximum else v1

/-- Qt's `QSpinBox::setValue`: the value is bounded to the range; the flag says
whether `valueChanged` is emitted (only when the value really changes). -/
def setValue (sb : QSpinBox) (v : Int) : QSpinBox × Bool :=
  let v1 := sb.bound v
  ({ sb with value := v1 }, decide (v1 ≠ sb.value))

/-- Qt's `QAbstractSpinBoxPrivate::setRange`: the maximum is never below the
minimum, and the value is re-bounded. -/
def setRange (sb : QSpinBox) (mn mx : Int) : QSpinBox × Bool :=
  let sb1 := { sb with minimum := mn, maximum := if mn < mx then mx else mn }
  if sb1.bound sb1.value ≠ sb1.value then sb1.setValue (sb1.bound sb1.value) else (sb1, false)

/-- Qt's `QSpinBox::setMinimum`. -/
def setMinimum (sb : QSpinBox) (m : Int) : QSpinBox × Bool :=
  sb.setRange m (if sb.maximum > m then sb.maximum else m)

/-- Qt's `QSpinBox::setMaximum`. -/
def setMaximum (sb : QSpinBox) (m : Int) : QSpinBox × Bool :=
  sb.setRange (if sb.minimum < m then sb.minimum else m) m

end QSpinBox

namespace QDoubleSpinBox

/-- Qt's `QAbstractSpinBoxPrivate::bound` without wrapping. -/
def bound (sb : QDoubleSpinBox) (v : Rat) : Rat :=
  let v1 := if v < sb.minimum then sb.minimum else v
  if v1 > sb.maximum then sb.maximum else v1

/-- Qt's `QDoubleSpinBoxPrivate::round`: the value rounded to the box's number
of decimals. -/
def round (sb : QDoubleSpinBox) (v : Rat) : Rat :=
  (((v * (10 : Rat) ^ sb.decimals + 1 / 2).floor : Int) : Rat) / (10 : Rat) ^ sb.decimals

/-- Qt's `QDoubleSpinBox::setValue`: round, then bound. -/
def setValue (sb : QDoubleSpinBox) (v : Rat) : QDoubleSpinBox × Bool :=
  let v1 := sb.bound (sb.round v)
  ({ sb with value := v1 }, decide (v1 ≠ sb.value))

/-- Qt's `QAbstractSpinBoxPrivate::setRange`. -/
def setRange (sb : QDoubleSpinBox) (mn mx : Rat) : QDoubleSpinBox × Bool :=
  let sb1 := { sb with minimum := mn, maximum := if mn < mx then mx else mn }
  if sb1.bound sb1.value ≠ sb1.value then
    ({ sb1 with value := sb1.bound sb1.value }, true)
  else (sb1, false)

/-- Qt's `QDoubleSpinBox::setMinimum`. -/
def setMinimum (sb : QDoubleSpinBox) (m : Rat) : QDoubleSpinBox × Bool :=
  sb.setRange m (if sb.maximum > m then sb.maximum else m)

/-- Qt's `QDoubleSpinBox::setMaximum`. -/
def setMaximum (sb : QDoubleSpinBox) (m : Rat) : QDoubleSpinBox × Bool :=
  sb.setRange (if sb.minimum < m then sb.minimum else m) m

end QDoubleSpinBox

/-- The controls of a playlist item (the `ui` member once `setupUi` ran). -/
structure Controls where
  labelStart : QLabel
  startSpinBox : QSpinBox
  labelEnd : QLabel
  endSpinBox : QSpinBox
  labelRate : QLabel
  rateSpinBox : QDoubleSpinBox
  labelSampling : QLabel
  samplingSpinBox : QSpinBox
  durationLabel : QLabel
  durationSpinBox : QDoubleSpinBox
  deriving DecidableEq

/-! ## The item -/

/-- The members of a `playlistItem`.  `ui` is `none` until the controls are
created (`ui.created()` is false); `log` is the trace. -/
structure playlistItem where
  name : QString
  type : playlistItemType
  cachingEnabled : Bool
  id : Nat
  playlistID : Int
  frameRate : Rat
  sampling : Int
  startEndFrame : indexRange
  startEndFrameChanged : Bool
  duration : Rat
  ui : Option Controls
  log : List Event
  deriving DecidableEq

/-- The  `emit signalItemChanged(redraw, cacheChanged)` statement. -/
def emitSignalItemChanged (redraw cacheChanged : Bool) (it : playlistItem) : playlistItem :=
  { it with log := it.log ++ [Event.signalItemChanged redraw cacheChanged] }

/-- The body of `playlistItem::slotVideoControlChanged`, lines 160-183, with
the sender of the signal that invoked it. -/
def slotVideoControlChanged (sender : Widget) (it : playlistItem) : playlistItem :=
  let it := { it with log := it.log ++ [Event.slotVideoControlChangedCalled sender] }
  match it.ui with
  | none => it
  | some ui =>
    if it.type = playlistItem_Static then
      { it with duration := ui.durationSpinBox.value }
    else
      let it :=
        if sender = Widget.startSpinBox ∨ sender = Widget.endSpinBox then
          { it with startEndFrameChanged := true }
        else it
      let it := { it with
        startEndFrame := ⟨ui.startSpinBox.value, ui.endSpinBox.value⟩,
        frameRate := ui.rateSpinBox.value,
        sampling := ui.samplingSpinBox.value }
      emitSignalItemChanged false false it

/-- Delivery of one `valueChanged` emission to one connected receiver. -/
def deliver (sender : Widget) (r : Receiver) (it : playlistItem) : playlistItem :=
  match r with
  | Receiver.slotVideoControlChanged => slotVideoControlChanged sender it
  | Receiver.foreign n => { it with log := it.log ++ [Event.foreignSlotCalled sender n] }

/-- Emission of `valueChanged` by `sender`: every connected receiver runs, in
connection order. -/
def emitValueChanged (sender : Widget) (conns : List Receiver) (it : playlistItem) :
    playlistItem :=
  conns.foldl (fun s r => deliver sender r s) it

/-! ### Calls on the widgets

A call `ui.box->f(x)` updates the box inside the item; when the box emits
`valueChanged`, the connected receivers run before the call returns. -/

/-- A call on `ui.startSpinBox`. -/
def onStartSpinBox (f : QSpinBox → QSpinBox × Bool) (it : playlistItem) : playlistItem :=
  match it.ui with
  | none => it
  | some ui =>
    let r := f ui.startSpinBox
    let it := { it with ui := some { ui with startSpinBox := r.1 } }
    if r.2 then emitValueChanged Widget.startSpinBox r.1.valueChanged it else it

/-- A call on `ui.endSpinBox`. -/
def onEndSpinBox (f : QSpinBox → QSpinBox × Bool) (it : playlistItem) : playlistItem :=
  match it.ui with
  | none => it
  | some ui =>
    let r := f ui.endSpinBox
    let it := { it with ui := some { ui with endSpinBox := r.1 } }
    if r.2 then emitValueChanged Widget.endSpinBox r.1.valueChanged it else it

/-- A call on `ui.samplingSpinBox`. -/
def onSamplingSpinBox (f : QSpinBox → QSpinBox × Bool) (it : playlistItem) : playlistItem :=
  match it.ui with
  | none => it
  | some ui =>
    let r := f ui.samplingSpinBox
    let it := { it with ui := some { ui with samplingSpinBox := r.1 } }
    if r.2 then emitValueChanged Widget.samplingSpinBox r.1.valueChanged it else it

/-- A call on `ui.rateSpinBox`. -/
def onRateSpinBox (f : QDoubleSpinBox → QDoubleSpinBox × Bool) (it : playlistItem) :
    playlistItem :=
  match it.ui with
  | none => it
  | some ui =>
    let r := f ui.rateSpinBox
    let it := { it with ui := some { ui with rateSpinBox := r.1 } }
    if r.2 then emitValueChanged Widget.rateSpinBox r.1.valueChanged it else it

/-- A call on `ui.durationSpinBox`. -/
def onDurationSpinBox (f : QDoubleSpinBox → QDoubleSpinBox × Bool) (it : playlistItem) :
    playlistItem :=
  match it.ui with
  | none => it
  | some ui =>
    let r := f ui.durationSpinBox
    let it := { it with ui := some { ui with durationSpinBox := r.1 } }
    if r.2 then emitValueChanged Widget.durationSpinBox r.1.valueChanged it else it

/-- The call `QObject::disconnect(box, SIGNAL(valueChanged(int)), NULL, NULL)`: every
connection of the signal is removed, whatever its receiver. -/
def disconnectAll (sb : QSpinBox) : QSpinBox × Bool :=
  ({ sb with valueChanged := [] }, false)

/-- The call `connect(box, SIGNAL(valueChanged(int)), this, SLOT(slotVideoControlChanged()))`:
one more connection, after the existing ones. -/
def connectSlot (sb : QSpinBox) : QSpinBox × Bool :=
  ({ sb with valueChanged := sb.valueChanged ++ [Receiver.slotVideoControlChanged] }, false)

/-- The same `connect` for a double spin box (`valueChanged(double)`). -/
def connectSlotDouble (sb : QDoubleSpinBox) : QDoubleSpinBox × Bool :=
  ({ sb with valueChanged := sb.valueChanged ++ [Receiver.slotVideoControlChanged] }, false)

/-! ### Member functions -/

/-- The body of `playlistItem::setType`, lines 66-87. -/
def setType (newType : playlistItemType) (it : playlistItem) : playlistItem :=
  let it :=
    match it.ui with
    | some ui =>
      let showIndexed := decide (newType = playlistItem_Indexed)
      let showStatic := decide (newType = playlistItem_Static)
      { it with ui := some { ui with
          labelStart := { ui.labelStart with visible := showIndexed },
          startSpinBox := { ui.startSpinBox with visible := showIndexed },
          labelEnd := { ui.labelEnd with visible := showIndexed },
          endSpinBox := { ui.endSpinBox with visible := showIndexed },
          labelRate := { ui.labelRate with visible := showIndexed },
          rateSpinBox := { ui.rateSpinBox with visible := showIndexed },
          labelSampling := { ui.labelSampling with visible := showIndexed },
          samplingSpinBox := { ui.samplingSpinBox with visible := showIndexed },
          durationLabel := { ui.durationLabel with visible := showStatic },
          durationSpinBox := { ui.durationSpinBox with visible := showStatic } } }
    | none => it
  { it with type := newType }

/-- The body of `playlistItem::setStartEndFrame`, lines 129-158.  The virtual
`getStartEndFrameLimits` is declared outside this file and is a parameter. -/
def setStartEndFrame (getStartEndFrameLimits : playlistItem → indexRange)
    (range : indexRange) (emitSignal : Bool) (it : playlistItem) : playlistItem :=
  let startEndFrameLimit := getStartEndFrameLimits it
  let it := { it with startEndFrame :=
    ⟨max startEndFrameLimit.first range.first, min startEndFrameLimit.second range.second⟩ }
  match it.ui with
  | none => it
  | some _ =>
    let it :=
      if !emitSignal then onEndSpinBox disconnectAll (onStartSpinBox disconnectAll it) else it
    let it := onStartSpinBox (fun sb => sb.setMinimum startEndFrameLimit.first) it
    let it := onStartSpinBox (fun sb => sb.setMaximum startEndFrameLimit.second) it
    let it := onStartSpinBox (fun sb => sb.setValue it.startEndFrame.first) it
    let it := onEndSpinBox (fun sb => sb.setMinimum startEndFrameLimit.first) it
    let it := onEndSpinBox (fun sb => sb.setMaximum startEndFrameLimit.second) it
    let it := onEndSpinBox (fun sb => sb.setValue it.startEndFrame.second) it
    if !emitSignal then onEndSpinBox connectSlot (onStartSpinBox connectSlot it) else it

/-- The body of `playlistItem::slotUpdateFrameLimits`, lines 185-201. -/
def slotUpdateFrameLimits (getStartEndFrameLimits : playlistItem → indexRange)
    (it : playlistItem) : playlistItem :=
  let it :=
    if !it.startEndFrameChanged then
      let startEndFrameLimit := getStartEndFrameLimits it
      setStartEndFrame getStartEndFrameLimits startEndFrameLimit false it
    else
      setStartEndFrame getStartEndFrameLimits it.startEndFrame false it
  emitSignalItemChanged false false it

/-- The body of `playlistItem::createPlaylistItemControls`, lines 203-243.  The
widgets that `ui.setupUi()` creates are a parameter (`setupUi` is declared
outside this file); a failed `assert` gives `none`. -/
def createPlaylistItemControls (getStartEndFrameLimits : playlistItem → indexRange)
    (setupUi : Controls) (it : playlistItem) : Option playlistItem :=
  if it.ui.isSome then none
  else
    let it := { it with ui := some setupUi }
    let startEndFrameLimit := getStartEndFrameLimits it
    let it :=
      if it.startEndFrame = ⟨-1, -1⟩ then { it with startEndFrame := startEndFrameLimit } else it
    let it := onDurationSpinBox (fun sb => sb.setMaximum 100000) it
    let it := onDurationSpinBox (fun sb => sb.setValue it.duration) it
    let it := onStartSpinBox (fun sb => sb.setMinimum startEndFrameLimit.first) it
    let it := onStartSpinBox (fun sb => sb.setMaximum startEndFrameLimit.second) it
    let it := onStartSpinBox (fun sb => sb.setValue it.startEndFrame.first) it
    let it := onEndSpinBox (fun sb => sb.setMinimum startEndFrameLimit.first) it
    let it := onEndSpinBox (fun sb => sb.setMaximum startEndFrameLimit.second) it
    let it := onEndSpinBox (fun sb => sb.setValue it.startEndFrame.second) it
    let it := onRateSpinBox (fun sb => sb.setMaximum 1000) it
    let it := onRateSpinBox (fun sb => sb.setValue it.frameRate) it
    let it := onSamplingSpinBox (fun sb => sb.setMinimum 1) it
    let it := onSamplingSpinBox (fun sb => sb.setMaximum 100000) it
    let it := onSamplingSpinBox (fun sb => sb.setValue it.sampling) it
    let it := setType it.type it
    let it := onStartSpinBox connectSlot it
    let it := onEndSpinBox connectSlot it
    let it := onRateSpinBox connectSlotDouble it
    let it := onSamplingSpinBox connectSlot it
    let it := onDurationSpinBox connectSlotDouble it
    some it

/-- The two constants of the constructor that are defined outside this file. -/
structure Constants where
  DEFAULT_FRAMERATE : Rat
  PLAYLISTITEMTEXT_DEFAULT_DURATION : Rat

/-- The constructor `playlistItem::playlistItem`, lines 23-41.  The static
`unsigned int idCounter` is passed in and returned; `id = idCounter++` stores
the old value and increments modulo `2^32`. -/
def playlistItem.ctor (k : Constants) (itemNameOrFileName : QString)
    (type : playlistItemType) (idCounter : Nat) : playlistItem × Nat :=
  let fresh : playlistItem :=
    { name := [], type := type, cachingEnabled := false, id := 0, playlistID := 0,
      frameRate := 0, sampling := 0, startEndFrame := ⟨0, 0⟩, startEndFrameChanged := false,
      duration := 0, ui := none, log := [] }
  let it := { fresh with name := itemNameOrFileName }
  let it := setType type it
  let it := { it with cachingEnabled := false }
  let it := { it with id := idCounter, playlistID := -1 }
  let it := { it with
    frameRate := k.DEFAULT_FRAMERATE,
    sampling := 1,
    startEndFrame := ⟨-1, -1⟩,
    startEndFrameChanged := false }
  let it := { it with duration := k.PLAYLISTITEMTEXT_DEFAULT_DURATION }
  (it, (idCounter + 1) % 2 ^ 32)

/-! ## The item tree -/

/-- A node of the tree widget.  `addr` is the address of the object (the value
of a pointer to it), `isPlaylistItem` says whether the `dynamic_cast` to
`playlistItem*` succeeds, and `children` are the child nodes in child order. -/
inductive QTreeWidgetItem where
  | node (addr : Nat) (isPlaylistItem : Bool) (children : List QTreeWidgetItem)

namespace QTreeWidgetItem

/-- The address of a node. -/
def addr : QTreeWidgetItem → Nat
  | node a _ _ => a

/-- Whether the node is a `playlistItem`. -/
def isPlaylistItem : QTreeWidgetItem → Bool
  | node _ b _ => b

/-- The children of a node. -/
def children : QTreeWidgetItem → List QTreeWidgetItem
  | node _ _ cs => cs

/-- The call `childCount()`. -/
def childCount (t : QTreeWidgetItem) : Nat := t.children.length

end QTreeWidgetItem

mutual
/-- The body of `playlistItem::getItemAndAllChildren`, lines 53-64, for `this` the
given node; the result is the list of pointers. -/
def getItemAndAllChildren : QTreeWidgetItem → List Nat
  | QTreeWidgetItem.node a _ cs => a :: getItemAndAllChildren.loop cs
/-- The `for` loop of `getItemAndAllChildren` over the children not yet visited. -/
def getItemAndAllChildren.loop : List QTreeWidgetItem → List Nat
  | [] => []
  | QTreeWidgetItem.node a b cs :: rest =>
    (if b then getItemAndAllChildren (QTreeWidgetItem.node a b cs) else [])
      ++ getItemAndAllChildren.loop rest
end

/-- The loop of the destructor `playlistItem::~playlistItem`, lines 46-50, from
counter value `i` on: while `i < childCount()`, the first child is taken out of
the child list and deleted (when it is a `playlistItem`; `delete` of a null
pointer does nothing) and `i` is incremented.  The result is the child list when
the loop finishes and the addresses handed to `delete`. -/
def destructorLoop : Nat → List QTreeWidgetItem → List Nat → List QTreeWidgetItem × List Nat
  | _, [], deleted => ([], deleted)
  | i, c :: rest, deleted =>
    if i < (c :: rest).length then
      destructorLoop (i + 1) rest (if c.isPlaylistItem then deleted ++ [c.addr] else deleted)
    else (c :: rest, deleted)

/-! ## Numbers and strings (Qt)

`QString::number` and `QString::toInt`/`toDouble` as Qt documents them, on
lists of characters. -/

/-- The character of a decimal digit. -/
def digitChar (d : Nat) : Char := Char.ofNat (48 + d)

/-- The value of a decimal digit character. -/
def digitValue (c : Char) : Option Nat :=
  if 48 ≤ c.toNat ∧ c.toNat ≤ 57 then some (c.toNat - 48) else none

/-- The decimal digits of `n`, most significant first (`fuel` bounds the number
of digits). -/
def decimalDigits : Nat → Nat → List Char
  | 0, _ => []
  | fuel + 1, n =>
    if n < 10 then [digitChar n] else decimalDigits fuel (n / 10) ++ [digitChar (n % 10)]

/-- The call `QString::number(n)` for an unsigned value. -/
def numberNat (n : Nat) : QString := decimalDigits (n + 1) n

/-- The call `QString::number(n)` for an `int`. -/
def numberInt (n : Int) : QString :=
  if n < 0 then '-' :: numberNat n.natAbs else numberNat n.natAbs

/-- The value of a non-empty string of decimal digits, read from the left with
the value read so far. -/
def parseDigitsFrom : Nat → List Char → Option Nat
  | acc, [] => some acc
  | acc, c :: cs =>
    match digitValue c with
    | some d => parseDigitsFrom (acc * 10 + d) cs
    | none => none

/-- The value of a non-empty string of decimal digits. -/
def parseDigits (s : List Char) : Option Nat :=
  if s = [] then none else parseDigitsFrom 0 s

/-- White space as `QChar::isSpace` sees it in Latin-1 text. -/
def isSpace (c : Char) : Bool :=
  c = ' ' || (9 ≤ c.toNat && c.toNat ≤ 13)

/-- The string without leading and trailing white space. -/
def trimmed (s : QString) : QString :=
  ((s.dropWhile isSpace).reverse.dropWhile isSpace).reverse

/-- An optional sign in front of the rest of the string: whether it is a minus
sign, and the rest. -/
def splitSign : List Char → Bool × List Char
  | '-' :: cs => (true, cs)
  | '+' :: cs => (false, cs)
  | cs => (false, cs)

/-- The call `s.toInt()`: the decimal value of the string when it is an optional
sign followed by digits and fits an `int`, and 0 when the conversion fails. -/
def toInt (s : QString) : Int :=
  let r := splitSign (trimmed s)
  match parseDigits r.2 with
  | some n =>
    if r.1 then (if n ≤ 2 ^ 31 then -(n : Int) else 0)
    else (if n < 2 ^ 31 then (n : Int) else 0)
  | none => 0

/-- The mantissa of a decimal number `digits[.digits]` with at least one digit:
its value as numerator and number of fraction digits. -/
def parseMantissa (s : List Char) : Option (Nat × Nat) :=
  let ip := s.takeWhile (fun c => c ≠ '.')
  let rest := s.dropWhile (fun c => c ≠ '.')
  let fp := rest.drop 1
  if ip = [] ∧ fp = [] then none
  else
    match parseDigitsFrom 0 ip, parseDigitsFrom 0 fp with
    | some a, some b => some (a * 10 ^ fp.length + b, fp.length)
    | _, _ => none

/-- The exponent part of a number, after the `e`: an optional sign and digits. -/
def parseExponent (s : List Char) : Option Int :=
  let r := splitSign s
  match parseDigits r.2 with
  | some n => some (if r.1 then -(n : Int) else (n : Int))
  | none => none

/-- The call `s.toDouble()` on decimal text `[sign]digits[.digits][e[sign]digits]`:
the number written, and 0 when the conversion fails.  The value is exact:
rounding to the nearest `double`, overflow and the texts `inf` and `nan` are not
modelled. -/
def toDouble (s : QString) : Rat :=
  let r := splitSign (trimmed s)
  let isE := fun c : Char => c = 'e' || c = 'E'
  let mant := r.2.takeWhile (fun c => !isE c)
  let rest := r.2.dropWhile (fun c => !isE c)
  let ex : Option Int := if rest = [] then some 0 else parseExponent (rest.drop 1)
  match parseMantissa mant, ex with
  | some (m, k), some e =>
    let num : Int := if r.1 then -(m : Int) else (m : Int)
    if e < 0 then mkRat num (10 ^ (k + e.natAbs)) else mkRat (num * 10 ^ e.natAbs) (10 ^ k)
  | _, _ => 0

/-- The list without its trailing zero characters. -/
def stripTrailingZeros (s : List Char) : List Char :=
  (s.reverse.dropWhile (fun c => c = '0')).reverse

/-- The least `k` from the given one on with `n * 10 ^ k ≥ d`. -/
def leadingShift (n d : Nat) : Nat → Nat → Nat
  | 0, k => k
  | fuel + 1, k => if n * 10 ^ k ≥ d then k else leadingShift n d fuel (k + 1)

/-- The decimal exponent of the positive number `n / d`: the `e` with
`10 ^ e ≤ n / d < 10 ^ (e + 1)`. -/
def decimalExponent (n d : Nat) : Int :=
  if n ≥ d then ((numberNat (n / d)).length : Int) - 1
  else -((leadingShift n d d 1 : Nat) : Int)

/-- Rounding of `n / d` to the nearest integer, ties to even. -/
def roundHalfEven (n d : Nat) : Nat :=
  let q := n / d
  let r := n % d
  if 2 * r > d ∨ (2 * r = d ∧ q % 2 = 1) then q + 1 else q

/-- The call `QString::number(x)` for a `double`: format `g` with precision 6,
that is six significant digits, trailing zeros removed, and scientific notation
when the decimal exponent is below -4 or at least 6. -/
def numberDouble (x : Rat) : QString :=
  if x.num = 0 then ['0']
  else
    let n := x.num.natAbs
    let d := x.den
    let e0 := decimalExponent n d
    let m0 :=
      if e0 ≤ 5 then roundHalfEven (n * 10 ^ (5 - e0).toNat) d
      else roundHalfEven n (d * 10 ^ (e0 - 5).toNat)
    let m := if m0 = 10 ^ 6 then 10 ^ 5 else m0
    let e := if m0 = 10 ^ 6 then e0 + 1 else e0
    let ds := numberNat m
    let body : List Char :=
      if e < -4 ∨ e ≥ 6 then
        let frac := stripTrailingZeros (ds.drop 1)
        let ex := numberNat e.natAbs
        ds.take 1 ++ (if frac = [] then [] else '.' :: frac)
          ++ ['e', if e < 0 then '-' else '+'] ++ (if ex.length < 2 then '0' :: ex else ex)
      else if e ≥ 0 then
        let frac := stripTrailingZeros (ds.drop (e.toNat + 1))
        ds.take (e.toNat + 1) ++ (if frac = [] then [] else '.' :: frac)
      else
        ['0', '.'] ++ List.replicate ((-e).toNat - 1) '0' ++ stripTrailingZeros ds
    if x.num < 0 then '-' :: body else body

/-! ## The playlist file -/

/-- Modelled from the spec: the class `QDomElementYUView` (an XML element of the
playlist file, declared outside this file) is the list of its property children,
each a tag name with its text, in document order. -/
abbrev QDomElementYUView := List (QString × QString)

/-- Modelled from the spec: `appendProperiteChild(type, name)` appends a child
element with tag `type` and text `name` after the existing children. -/
def appendProperiteChild (type name : QString) (d : QDomElementYUView) : QDomElementYUView :=
  d ++ [(type, name)]

/-- Modelled from the spec: `findChildValue(tagName)` is the text of the first
child element with that tag, and the empty string when there is none. -/
def findChildValue (tagName : QString) (d : QDomElementYUView) : QString :=
  match d.find? (fun p => p.1 = tagName) with
  | some p => p.2
  | none => []

/-- The body of `playlistItem::appendPropertiesToPlaylist`, lines 90-107: the item
after the call and the element after the call. -/
def appendPropertiesToPlaylist (it : playlistItem) (d : QDomElementYUView) :
    playlistItem × QDomElementYUView :=
  let d := appendProperiteChild "id".toList (numberNat it.id) d
  if it.type = playlistItem_Indexed then
    let d := appendProperiteChild "startFrame".toList (numberInt it.startEndFrame.first) d
    let d := appendProperiteChild "endFrame".toList (numberInt it.startEndFrame.second) d
    let d := appendProperiteChild "sampling".toList (numberInt it.sampling) d
    let d := appendProperiteChild "frameRate".toList (numberDouble it.frameRate) d
    (it, d)
  else
    let d := appendProperiteChild "duration".toList (numberDouble it.duration) d
    (it, d)

/-- The body of the static function `playlistItem::loadPropertiesFromPlaylist`,
lines 110-127.  `fuel` bounds the depth of the calls: `none` means that the
call did not return within that depth. -/
def loadPropertiesFromPlaylist :
    Nat → QDomElementYUView → playlistItem → Option playlistItem
  | 0, _, _ => none
  | fuel + 1, root, newItem =>
    let newItem := { newItem with playlistID := toInt (findChildValue "id".toList root) }
    if newItem.type = playlistItem_Indexed then
      let startFrame := toInt (findChildValue "startFrame".toList root)
      let endFrame := toInt (findChildValue "endFrame".toList root)
      let newItem := { newItem with startEndFrame := ⟨startFrame, endFrame⟩ }
      let newItem := { newItem with sampling := toInt (findChildValue "sampling".toList root) }
      let newItem := { newItem with
        frameRate := ((toInt (findChildValue "frameRate".toList root) : Int) : Rat) }
      some newItem
    else
      let newItem := { newItem with duration := toDouble (findChildValue "duration".toList root) }
      loadPropertiesFromPlaylist fuel root newItem


/-! ## Sample values -/

/-- A spin box as Qt creates it: range 0 to 99, value 0, visible, not connected. -/
def freshSpinBox : QSpinBox :=
  { minimum := 0, maximum := 99, value := 0, visible := true, valueChanged := [] }

/-- A double spin box as Qt creates it: range 0 to 99.99, two decimals. -/
def freshDoubleSpinBox : QDoubleSpinBox :=
  { minimum := 0, maximum := mkRat 9999 100, value := 0, decimals := 2, visible := true,
    valueChanged := [] }

/-- Controls whose start and end spin boxes are connected to the item's slot
and, for the start box, to a slot of another object as well. -/
def sampleControls : Controls :=
  { labelStart := ⟨true⟩,
    startSpinBox := { freshSpinBox with
      valueChanged := [Receiver.slotVideoControlChanged, Receiver.foreign 0] },
    labelEnd := ⟨true⟩,
    endSpinBox := { freshSpinBox with valueChanged := [Receiver.slotVideoControlChanged] },
    labelRate := ⟨true⟩,
    rateSpinBox := freshDoubleSpinBox,
    labelSampling := ⟨true⟩,
    samplingSpinBox := { freshSpinBox with minimum := 1, value := 1 },
    durationLabel := ⟨true⟩,
    durationSpinBox := freshDoubleSpinBox }

/-- An indexed item without controls: id 7, frames 2 to 5, 12.5 frames per second. -/
def sampleItem : playlistItem :=
  { name := "a.yuv".toList, type := playlistItem_Indexed, cachingEnabled := false, id := 7,
    playlistID := -1, frameRate := mkRat 25 2, sampling := 1, startEndFrame := ⟨2, 5⟩,
    startEndFrameChanged := false, duration := 5, ui := none, log := [] }

/-- Limits 0 to 10, whatever the item. -/
def sampleLimits : playlistItem → indexRange := fun _ => ⟨0, 10⟩

/-! ## Definitions used to state the properties -/

/-- The start or end spin box after `setStartEndFrame(range, false)`: disconnected,
given the new range and value, and connected to the slot again. -/
def boxAfterQuietUpdate (sb : QSpinBox) (lo hi v : Int) : QSpinBox :=
  (connectSlot
    (((((disconnectAll sb).1.setMinimum lo).1.setMaximum hi).1.setValue v).1)).1

/-- A sequence of constructor calls, one for each name and type, starting from
the given value of `idCounter`: the items constructed, in order, and the final
value of `idCounter`. -/
def constructAll (k : Constants) :
    List (QString × playlistItemType) → Nat → List playlistItem × Nat
  | [], idCounter => ([], idCounter)
  | a :: rest, idCounter =>
    let r := playlistItem.ctor k a.1 a.2 idCounter
    let rs := constructAll k rest r.2
    (r.1 :: rs.1, rs.2)

/-- The constants as the application defines them (20 frames per second, 5
seconds). -/
def sampleConstants : Constants :=
  { DEFAULT_FRAMERATE := 20, PLAYLISTITEMTEXT_DEFAULT_DURATION := 5 }

/-- `Reach t x`: the node `x` is `t` itself or is reached from `t` by going down
through children that are playlist items. -/
inductive Reach : QTreeWidgetItem → QTreeWidgetItem → Prop where
  | self (t : QTreeWidgetItem) : Reach t t
  | child {t c x : QTreeWidgetItem} :
      c ∈ t.children → c.isPlaylistItem = true → Reach c x → Reach t x

mutual
/-- The addresses of all nodes of a tree, in pre-order. -/
def allAddrs : QTreeWidgetItem → List Nat
  | QTreeWidgetItem.node a _ cs => a :: allAddrs.list cs
/-- The addresses of all nodes of a list of trees. -/
def allAddrs.list : List QTreeWidgetItem → List Nat
  | [] => []
  | QTreeWidgetItem.node a b cs :: rest =>
    allAddrs (QTreeWidgetItem.node a b cs) ++ allAddrs.list rest
end

/-- A tree: item 1 with the children 2 (a playlist item with child 3), 4 (not a
playlist item, with the playlist item 5 below it) and 6 (a playlist item). -/
def sampleTree : QTreeWidgetItem :=
  QTreeWidgetItem.node 1 true
    [QTreeWidgetItem.node 2 true [QTreeWidgetItem.node 3 true []],
     QTreeWidgetItem.node 4 false [QTreeWidgetItem.node 5 true []],
     QTreeWidgetItem.node 6 true []]

/-- A text of decimal digits only. -/
def IsDigits (l : List Char) : Prop := ∀ c, c ∈ l → ∃ d, d < 10 ∧ c = digitChar d

@[simp] theorem QSpinBox.setValue_valueChanged (sb : QSpinBox) (v : Int) :
    (sb.setValue v).1.valueChanged = sb.valueChanged := rfl

/-- The call `setRange` keeps the connections. -/
@[simp] theorem QSpinBox.setRange_valueChanged (sb : QSpinBox) (a b : Int) :
    (sb.setRange a b).1.valueChanged = sb.valueChanged := by
  simp only [QSpinBox.setRange]
  split_ifs <;> rfl

/-- The call `setMinimum` keeps the connections. -/
@[simp] theorem QSpinBox.setMinimum_valueChanged (sb : QSpinBox) (m : Int) :
    (sb.setMinimum m).1.valueChanged = sb.valueChanged := by
  simp [QSpinBox.setMinimum]

/-- The call `setMaximum` keeps the connections. -/
@[simp] theorem QSpinBox.setMaximum_valueChanged (sb : QSpinBox) (m : Int) :
    (sb.setMaximum m).1.valueChanged = sb.valueChanged := by
  simp [QSpinBox.setMaximum]

/-- A signal without connections runs nothing. -/
@[simp] theorem emitValueChanged_nil (w : Widget) (it : playlistItem) :
    emitValueChanged w [] it = it := rfl

/-- A call on the start spin box that leaves it without connections changes
nothing but the box. -/
theorem onStartSpinBox_quiet (f : QSpinBox → QSpinBox × Bool) (it : playlistItem)
    (c : Controls) (h : it.ui = some c) (hq : (f c.startSpinBox).1.valueChanged = []) :
    onStartSpinBox f it = { it with ui := some { c with startSpinBox := (f c.startSpinBox).1 } } := by
  unfold onStartSpinBox
  rw [h]
  simp only [hq, emitValueChanged_nil, ite_self]

/-- A call on the end spin box that leaves it without connections changes
nothing but the box. -/
theorem onEndSpinBox_quiet (f : QSpinBox → QSpinBox × Bool) (it : playlistItem)
    (c : Controls) (h : it.ui = some c) (hq : (f c.endSpinBox).1.valueChanged = []) :
    onEndSpinBox f it = { it with ui := some { c with endSpinBox := (f c.endSpinBox).1 } } := by
  unfold onEndSpinBox
  rw [h]
  simp only [hq, emitValueChanged_nil, ite_self]

/-- What `setStartEndFrame(range, false)` does to an item with controls: the range
is stored, intersected with the limits, and the two spin boxes are rewritten. -/
theorem setStartEndFrame_quiet (g : playlistItem → indexRange) (range : indexRange)
    (it : playlistItem) (c : Controls) (h : it.ui = some c) :
    setStartEndFrame g range false it =
      { it with
        startEndFrame := ⟨max (g it).first range.first, min (g it).second range.second⟩,
        ui := some { c with
          startSpinBox := boxAfterQuietUpdate c.startSpinBox (g it).first (g it).second
            (max (g it).first range.first),
          endSpinBox := boxAfterQuietUpdate c.endSpinBox (g it).first (g it).second
            (min (g it).second range.second) } } := by
  obtain ⟨name, type, ce, id, pid, fr, sa, sef, sefc, du, ui, log⟩ := it
  simp only at h
  subst h
  simp [setStartEndFrame, onStartSpinBox, onEndSpinBox, disconnectAll, connectSlot,
    boxAfterQuietUpdate]

/-- The fields of an item after `setStartEndFrame(range, false)`, with or without
controls: only the stored range (and the widgets) can differ. -/
theorem setStartEndFrame_false_fields (g : playlistItem → indexRange) (range : indexRange)
    (it : playlistItem) :
    (setStartEndFrame g range false it).startEndFrame
        = ⟨max (g it).first range.first, min (g it).second range.second⟩ ∧
      (setStartEndFrame g range false it).startEndFrameChanged = it.startEndFrameChanged ∧
      (setStartEndFrame g range false it).frameRate = it.frameRate ∧
      (setStartEndFrame g range false it).sampling = it.sampling ∧
      (setStartEndFrame g range false it).duration = it.duration ∧
      (setStartEndFrame g range false it).log = it.log := by
  cases h : it.ui with
  | none => simp [setStartEndFrame, h]
  | some c => rw [setStartEndFrame_quiet g range it c h]; simp

/-! ## Lemmas: the item id is never written -/

@[simp] theorem slotVideoControlChanged_id (w : Widget) (it : playlistItem) :
    (slotVideoControlChanged w it).id = it.id := by
  unfold slotVideoControlChanged
  simp only
  split
  · rfl
  · split_ifs <;> rfl

/-- A delivery keeps the id. -/
@[simp] theorem deliver_id (w : Widget) (r : Receiver) (it : playlistItem) :
    (deliver w r it).id = it.id := by
  cases r <;> simp [deliver]

/-- An emission keeps the id. -/
@[simp] theorem emitValueChanged_id (w : Widget) (conns : List Receiver) (it : playlistItem) :
    (emitValueChanged w conns it).id = it.id := by
  induction conns generalizing it with
  | nil => rfl
  | cons r rest ih =>
    have h := ih (deliver w r it)
    simp only [emitValueChanged, List.foldl_cons] at h ⊢
    rw [h, deliver_id]

/-- A call on the start spin box keeps the id. -/
@[simp] theorem onStartSpinBox_id (f : QSpinBox → QSpinBox × Bool) (it : playlistItem) :
    (onStartSpinBox f it).id = it.id := by
  unfold onStartSpinBox
  split
  · rfl
  · simp only; split_ifs <;> simp

/-- A call on the end spin box keeps the id. -/
@[simp] theorem onEndSpinBox_id (f : QSpinBox → QSpinBox × Bool) (it : playlistItem) :
    (onEndSpinBox f it).id = it.id := by
  unfold onEndSpinBox
  split
  · rfl
  · simp only; split_ifs <;> simp

/-- A call on the sampling spin box keeps the id. -/
@[simp] theorem onSamplingSpinBox_id (f : QSpinBox → QSpinBox × Bool) (it : playlistItem) :
    (onSamplingSpinBox f it).id = it.id := by
  unfold onSamplingSpinBox
  split
  · rfl
  · simp only; split_ifs <;> simp

/-- A call on the rate spin box keeps the id. -/
@[simp] theorem onRateSpinBox_id (f : QDoubleSpinBox → QDoubleSpinBox × Bool)
    (it : playlistItem) : (onRateSpinBox f it).id = it.id := by
  unfold onRateSpinBox
  split
  · rfl
  · simp only; split_ifs <;> simp

/-- A call on the duration spin box keeps the id. -/
@[simp] theorem onDurationSpinBox_id (f : QDoubleSpinBox → QDoubleSpinBox × Bool)
    (it : playlistItem) : (onDurationSpinBox f it).id = it.id := by
  unfold onDurationSpinBox
  split
  · rfl
  · simp only; split_ifs <;> simp

/-- The call `setType` keeps the id. -/
@[simp] theorem setType_id (t : playlistItemType) (it : playlistItem) :
    (setType t it).id = it.id := by
  unfold setType
  cases it.ui <;> rfl

/-- The call `setStartEndFrame` keeps the id. -/
@[simp] theorem setStartEndFrame_id (g : playlistItem → indexRange) (range : indexRange)
    (e : Bool) (it : playlistItem) : (setStartEndFrame g range e it).id = it.id := by
  unfold setStartEndFrame
  simp only
  split
  · rfl
  · cases e <;> simp

/-- The slot `slotUpdateFrameLimits` keeps the id. -/
@[simp] theorem slotUpdateFrameLimits_id (g : playlistItem → indexRange) (it : playlistItem) :
    (slotUpdateFrameLimits g it).id = it.id := by
  unfold slotUpdateFrameLimits emitSignalItemChanged
  simp only
  split_ifs <;> simp

/-- The call `createPlaylistItemControls` keeps the id. -/
theorem createPlaylistItemControls_id (g : playlistItem → indexRange) (u : Controls)
    (it r : playlistItem) (h : createPlaylistItemControls g u it = some r) : r.id = it.id := by
  unfold createPlaylistItemControls at h
  split_ifs at h with h1
  simp only [Option.some.injEq] at h
  rw [← h]
  simp only [onDurationSpinBox_id, onSamplingSpinBox_id, onRateSpinBox_id, onEndSpinBox_id,
    onStartSpinBox_id, setType_id]
  split_ifs <;> rfl

/-- The call `loadPropertiesFromPlaylist` keeps the id of the new item. -/
theorem loadPropertiesFromPlaylist_id (fuel : Nat) (root : QDomElementYUView)
    (it r : playlistItem) (h : loadPropertiesFromPlaylist fuel root it = some r) :
    r.id = it.id := by
  induction fuel generalizing it r with
  | zero => simp [loadPropertiesFromPlaylist] at h
  | succ n ih =>
    simp only [loadPropertiesFromPlaylist] at h
    split_ifs at h with h1
    · simp only [Option.some.injEq] at h
      rw [← h]
    · have h2 := ih _ r h
      simpa using h2

/-! ## The claims on the frame range -/

/-- C1 (the code departs from the claim): with limits 0 to 10 the request (20, 30),
which lies above the limits, is stored as (20, 10), and the request (-9, -4),
which lies below them, as (0, -4); so the stored start frame 20 and the stored
end frame -4 are outside the limits.  This is so without controls, for both
values of `emitSignal`, and with controls when `emitSignal` is false. -/
theorem setStartEndFrame_outside_limits_not_clamped :
    (setStartEndFrame sampleLimits ⟨20, 30⟩ true sampleItem).startEndFrame = ⟨20, 10⟩ ∧
    (setStartEndFrame sampleLimits ⟨20, 30⟩ false sampleItem).startEndFrame = ⟨20, 10⟩ ∧
    (setStartEndFrame sampleLimits ⟨20, 30⟩ false
      { sampleItem with ui := some sampleControls }).startEndFrame = ⟨20, 10⟩ ∧
    (setStartEndFrame sampleLimits ⟨-9, -4⟩ false sampleItem).startEndFrame = ⟨0, -4⟩ ∧
    ¬ ((sampleLimits sampleItem).first ≤ 20 ∧ 20 ≤ (sampleLimits sampleItem).second) ∧
    ¬ ((sampleLimits sampleItem).first ≤ -4 ∧ -4 ≤ (sampleLimits sampleItem).second) := by
  decide

/-- C7: `slotUpdateFrameLimits` sets the range to the limits when the user has not
changed it, keeps a user-changed range that lies within the limits, and leaves
`startEndFrameChanged` as it was. -/
theorem slotUpdateFrameLimits_reconciles (g : playlistItem → indexRange) (it : playlistItem) :
    (it.startEndFrameChanged = false → (slotUpdateFrameLimits g it).startEndFrame = g it) ∧
    (it.startEndFrameChanged = true → (g it).first ≤ it.startEndFrame.first →
      it.startEndFrame.second ≤ (g it).second →
      (slotUpdateFrameLimits g it).startEndFrame = it.startEndFrame) ∧
    (slotUpdateFrameLimits g it).startEndFrameChanged = it.startEndFrameChanged := by
  refine ⟨?_, ?_, ?_⟩
  · intro h
    have h1 := (setStartEndFrame_false_fields g (g it) it).1
    simp [slotUpdateFrameLimits, emitSignalItemChanged, h, h1]
  · intro h hlo hhi
    have h1 := (setStartEndFrame_false_fields g it.startEndFrame it).1
    simp [slotUpdateFrameLimits, emitSignalItemChanged, h, h1, max_eq_right hlo,
      min_eq_right hhi]
  · have h1 := (setStartEndFrame_false_fields g (g it) it).2.1
    have h2 := (setStartEndFrame_false_fields g it.startEndFrame it).2.1
    unfold slotUpdateFrameLimits emitSignalItemChanged
    simp only
    split_ifs
    · exact h1
    · exact h2

/-- C7 at concrete items with limits 0 to 10: an untouched item with range (2, 5)
gets the range (0, 10), an item whose range (2, 5) the user has set keeps it,
with and without controls. -/
theorem slotUpdateFrameLimits_reconciles_witness :
    (slotUpdateFrameLimits sampleLimits sampleItem).startEndFrame = ⟨0, 10⟩ ∧
    (slotUpdateFrameLimits sampleLimits
      { sampleItem with startEndFrameChanged := true, ui := some sampleControls }).startEndFrame
        = ⟨2, 5⟩ ∧
    (slotUpdateFrameLimits sampleLimits
      { sampleItem with startEndFrameChanged := true, ui := some sampleControls }).startEndFrameChanged
        = true :=
  ⟨(slotUpdateFrameLimits_reconciles sampleLimits sampleItem).1 rfl,
   (slotUpdateFrameLimits_reconciles sampleLimits
      { sampleItem with startEndFrameChanged := true, ui := some sampleControls }).2.1 rfl
      (by decide) (by decide),
   (slotUpdateFrameLimits_reconciles sampleLimits
      { sampleItem with startEndFrameChanged := true, ui := some sampleControls }).2.2⟩

/-- C9: on an item with controls, `setStartEndFrame(range, false)` invokes no slot
and emits no signal (the trace is unchanged), leaves `startEndFrameChanged`,
`frameRate`, `sampling` and `duration` unchanged, and returns with exactly one
`valueChanged` connection on each of the start and end spin boxes, to this
item's `slotVideoControlChanged`. -/
theorem setStartEndFrame_no_feedback (g : playlistItem → indexRange) (range : indexRange)
    (it : playlistItem) (c : Controls) (h : it.ui = some c) :
    (setStartEndFrame g range false it).log = it.log ∧
    (setStartEndFrame g range false it).startEndFrameChanged = it.startEndFrameChanged ∧
    (setStartEndFrame g range false it).frameRate = it.frameRate ∧
    (setStartEndFrame g range false it).sampling = it.sampling ∧
    (setStartEndFrame g range false it).duration = it.duration ∧
    ∃ c1, (setStartEndFrame g range false it).ui = some c1 ∧
      c1.startSpinBox.valueChanged = [Receiver.slotVideoControlChanged] ∧
      c1.endSpinBox.valueChanged = [Receiver.slotVideoControlChanged] := by
  have hf := setStartEndFrame_false_fields g range it
  refine ⟨hf.2.2.2.2.2, hf.2.1, hf.2.2.1, hf.2.2.2.1, hf.2.2.2.2.1, ?_⟩
  rw [setStartEndFrame_quiet g range it c h]
  exact ⟨_, rfl, by simp [boxAfterQuietUpdate, connectSlot, disconnectAll],
    by simp [boxAfterQuietUpdate, connectSlot, disconnectAll]⟩

/-- C9 at a concrete item: the start spin box is connected to the item's slot and
to a foreign slot, the values of both boxes change in the call, and the trace
stays empty. -/
theorem setStartEndFrame_no_feedback_witness :
    ({ sampleItem with ui := some sampleControls } : playlistItem).ui = some sampleControls ∧
    (setStartEndFrame sampleLimits ⟨3, 4⟩ false
      { sampleItem with ui := some sampleControls }).log = [] ∧
    (setStartEndFrame sampleLimits ⟨3, 4⟩ false
      { sampleItem with ui := some sampleControls }).startEndFrameChanged = false :=
  ⟨rfl,
   (setStartEndFrame_no_feedback sampleLimits ⟨3, 4⟩
      { sampleItem with ui := some sampleControls } sampleControls rfl).1,
   (setStartEndFrame_no_feedback sampleLimits ⟨3, 4⟩
      { sampleItem with ui := some sampleControls } sampleControls rfl).2.1⟩

/-! ## The claim on the item type -/

/-- C10: `setType(t)` sets the type to `t` and changes no other member; with
controls, the start, end, rate and sampling labels and spin boxes are visible
exactly when `t` is `playlistItem_Indexed`, the duration label and spin box
exactly when `t` is `playlistItem_Static`, an indexed control and a duration
control are never visible together, and nothing else of the widgets changes;
without controls, there are still no controls afterwards. -/
theorem setType_sets_type_and_visibility (t : playlistItemType) (it : playlistItem) :
    (setType t it).type = t ∧
    (setType t it).id = it.id ∧
    (setType t it).playlistID = it.playlistID ∧
    (setType t it).startEndFrame = it.startEndFrame ∧
    (setType t it).sampling = it.sampling ∧
    (setType t it).frameRate = it.frameRate ∧
    (setType t it).duration = it.duration ∧
    (setType t it).startEndFrameChanged = it.startEndFrameChanged ∧
    (setType t it).name = it.name ∧
    (setType t it).cachingEnabled = it.cachingEnabled ∧
    (setType t it).log = it.log ∧
    (∀ c, it.ui = some c → ∃ c1, (setType t it).ui = some c1 ∧
      (c1.labelStart.visible = true ↔ t = playlistItem_Indexed) ∧
      (c1.startSpinBox.visible = true ↔ t = playlistItem_Indexed) ∧
      (c1.labelEnd.visible = true ↔ t = playlistItem_Indexed) ∧
      (c1.endSpinBox.visible = true ↔ t = playlistItem_Indexed) ∧
      (c1.labelRate.visible = true ↔ t = playlistItem_Indexed) ∧
      (c1.rateSpinBox.visible = true ↔ t = playlistItem_Indexed) ∧
      (c1.labelSampling.visible = true ↔ t = playlistItem_Indexed) ∧
      (c1.samplingSpinBox.visible = true ↔ t = playlistItem_Indexed) ∧
      (c1.durationLabel.visible = true ↔ t = playlistItem_Static) ∧
      (c1.durationSpinBox.visible = true ↔ t = playlistItem_Static) ∧
      ¬ ((c1.labelStart.visible = true ∨ c1.startSpinBox.visible = true ∨
            c1.labelEnd.visible = true ∨ c1.endSpinBox.visible = true ∨
            c1.labelRate.visible = true ∨ c1.rateSpinBox.visible = true ∨
            c1.labelSampling.visible = true ∨ c1.samplingSpinBox.visible = true) ∧
          (c1.durationLabel.visible = true ∨ c1.durationSpinBox.visible = true)) ∧
      c1.startSpinBox = { c.startSpinBox with visible := c1.startSpinBox.visible } ∧
      c1.endSpinBox = { c.endSpinBox with visible := c1.endSpinBox.visible } ∧
      c1.rateSpinBox = { c.rateSpinBox with visible := c1.rateSpinBox.visible } ∧
      c1.samplingSpinBox = { c.samplingSpinBox with visible := c1.samplingSpinBox.visible } ∧
      c1.durationSpinBox = { c.durationSpinBox with visible := c1.durationSpinBox.visible }) ∧
    (it.ui = none → (setType t it).ui = none) := by
  refine ⟨?_, ?_, ?_, ?_, ?_, ?_, ?_, ?_, ?_, ?_, ?_, ?hc, ?hn⟩
  case hc =>
    intro c h
    unfold setType
    rw [h]
    refine ⟨_, rfl, ?_⟩
    cases t <;> simp
  case hn =>
    intro h
    unfold setType
    simp [h]
  all_goals (unfold setType; cases it.ui <;> rfl)

/-- C10 at concrete items: the sample item with controls, made static, shows the
duration controls and hides the start spin box; the sample item without
controls stays without controls. -/
theorem setType_sets_type_and_visibility_witness :
    (∃ c1, (setType playlistItem_Static { sampleItem with ui := some sampleControls }).ui
        = some c1 ∧
      (c1.startSpinBox.visible = true ↔ playlistItem_Static = playlistItem_Indexed) ∧
      (c1.durationSpinBox.visible = true ↔ playlistItem_Static = playlistItem_Static)) ∧
    (setType playlistItem_Static sampleItem).ui = none :=
  ⟨(((setType_sets_type_and_visibility playlistItem_Static
        { sampleItem with ui := some sampleControls }).2.2.2.2.2.2.2.2.2.2.2.1
        sampleControls rfl).imp
      (fun _ hc => ⟨hc.1, hc.2.2.1, hc.2.2.2.2.2.2.2.2.2.2.1⟩)),
   (setType_sets_type_and_visibility playlistItem_Static sampleItem).2.2.2.2.2.2.2.2.2.2.2.2 rfl⟩

/-! ## The claim on the item ids -/

/-- The constructor gives the item the old counter value as id. -/
theorem ctor_id (k : Constants) (n : QString) (t : playlistItemType) (idCounter : Nat) :
    (playlistItem.ctor k n t idCounter).1.id = idCounter ∧
    (playlistItem.ctor k n t idCounter).2 = (idCounter + 1) % 2 ^ 32 := by
  simp [playlistItem.ctor]

/-- The ids of a sequence of constructions that does not exhaust the counter
are consecutive. -/
theorem constructAll_ids (k : Constants) (args : List (QString × playlistItemType))
    (c : Nat) (hc : c < 2 ^ 32) (h : c + args.length ≤ 2 ^ 32) :
    (constructAll k args c).1.map (fun it => it.id) = List.range' c args.length ∧
    (constructAll k args c).2 = (c + args.length) % 2 ^ 32 := by
  induction args generalizing c with
  | nil =>
    simp only [constructAll, List.map_nil, List.length_nil, List.range', Nat.add_zero, true_and]
    exact (Nat.mod_eq_of_lt hc).symm
  | cons a rest ih =>
    simp only [List.length_cons] at h
    simp only [constructAll, List.map_cons, List.length_cons, List.range', (ctor_id k _ _ c).1,
      (ctor_id k _ _ c).2, true_and, List.cons.injEq]
    rcases Nat.lt_or_ge (c + 1) (2 ^ 32) with h1 | h1
    · have h2 := ih (c + 1) h1 (by omega)
      rw [Nat.mod_eq_of_lt h1]
      refine ⟨h2.1, ?_⟩
      rw [h2.2]
      congr 1
      omega
    · have hr : rest = [] := List.eq_nil_of_length_eq_zero (by omega)
      subst hr
      simp only [constructAll, List.map_nil, List.length_nil, List.range', true_and]

/-- C5: in a sequence of fewer than `2^32` constructions from the initial counter
value 0, the ids of the items are 0, 1, 2, ... in order of construction (the
counter value before each call), so no two of them are equal, and the counter
ends at the number of constructions; and no other member function changes the
id of an item (none of them has access to the counter in this embedding, as none
mentions `idCounter` in the source). -/
theorem playlistItem_ids_unique (k : Constants) (args : List (QString × playlistItemType))
    (h : args.length < 2 ^ 32) :
    (constructAll k args 0).1.map (fun it => it.id) = List.range args.length ∧
    ((constructAll k args 0).1.map (fun it => it.id)).Nodup ∧
    (constructAll k args 0).2 = args.length ∧
    (∀ (n : QString) (t : playlistItemType) (c : Nat),
      (playlistItem.ctor k n t c).1.id = c ∧ (playlistItem.ctor k n t c).2 = (c + 1) % 2 ^ 32) ∧
    (∀ (it : playlistItem) (t : playlistItemType) (g : playlistItem → indexRange)
        (range : indexRange) (e : Bool) (w : Widget) (d : QDomElementYUView) (u : Controls)
        (fuel : Nat),
      (setType t it).id = it.id ∧
      (setStartEndFrame g range e it).id = it.id ∧
      (slotVideoControlChanged w it).id = it.id ∧
      (slotUpdateFrameLimits g it).id = it.id ∧
      (appendPropertiesToPlaylist it d).1.id = it.id ∧
      (∀ r, loadPropertiesFromPlaylist fuel d it = some r → r.id = it.id) ∧
      (∀ r, createPlaylistItemControls g u it = some r → r.id = it.id)) := by
  have h1 := constructAll_ids k args 0 (by norm_num) (by omega)
  simp only [Nat.zero_add] at h1
  have h2 : (constructAll k args 0).1.map (fun it => it.id) = List.range args.length := by
    rw [h1.1, List.range_eq_range']
  refine ⟨h2, ?_, ?_, fun n t c => ctor_id k n t c, ?_⟩
  · rw [h2]
    exact List.nodup_range _
  · rw [h1.2, Nat.mod_eq_of_lt h]
  · intro it t g range e w d u fuel
    refine ⟨setType_id t it, setStartEndFrame_id g range e it, slotVideoControlChanged_id w it,
      slotUpdateFrameLimits_id g it, ?_, fun r hr => loadPropertiesFromPlaylist_id fuel d it r hr,
      fun r hr => createPlaylistItemControls_id g u it r hr⟩
    unfold appendPropertiesToPlaylist
    simp only
    split_ifs <;> rfl

/-- C5 at a concrete sequence: three constructions give the ids 0, 1, 2 and leave
the counter at 3. -/
theorem playlistItem_ids_unique_witness :
    (constructAll sampleConstants
      [("a".toList, playlistItem_Indexed), ("b".toList, playlistItem_Static),
       ("c".toList, playlistItem_Indexed)] 0).1.map (fun it => it.id) = List.range 3 ∧
    (constructAll sampleConstants
      [("a".toList, playlistItem_Indexed), ("b".toList, playlistItem_Static),
       ("c".toList, playlistItem_Indexed)] 0).2 = 3 :=
  ⟨(playlistItem_ids_unique sampleConstants
      [("a".toList, playlistItem_Indexed), ("b".toList, playlistItem_Static),
       ("c".toList, playlistItem_Indexed)] (by decide)).1,
   (playlistItem_ids_unique sampleConstants
      [("a".toList, playlistItem_Indexed), ("b".toList, playlistItem_Static),
       ("c".toList, playlistItem_Indexed)] (by decide)).2.2.1⟩

/-! ## Lemmas on printing and reading numbers -/

/-- The value of the character of a digit is the digit. -/
theorem digitValue_digitChar (d : Nat) (h : d < 10) : digitValue (digitChar d) = some d := by
  interval_cases d <;> rfl

/-- A digit character is not white space. -/
theorem isSpace_digitChar (d : Nat) (h : d < 10) : isSpace (digitChar d) = false := by
  interval_cases d <;> rfl

/-- A string that starts with a digit has no sign. -/
theorem splitSign_digitChar (d : Nat) (h : d < 10) (rest : List Char) :
    splitSign (digitChar d :: rest) = (false, digitChar d :: rest) := by
  interval_cases d <;> rfl

/-- Reading a string of digits with one more character at its end. -/
theorem parseDigitsFrom_append (acc : Nat) (l : List Char) (c : Char) :
    parseDigitsFrom acc (l ++ [c]) =
      (parseDigitsFrom acc l).bind (fun v => (digitValue c).map (fun d => v * 10 + d)) := by
  induction l generalizing acc with
  | nil =>
    simp only [List.nil_append, parseDigitsFrom]
    cases digitValue c <;> rfl
  | cons a l ih =>
    simp only [List.cons_append, parseDigitsFrom]
    cases digitValue a with
    | none => rfl
    | some d => exact ih _

/-- Reading the decimal digits of a number gives the number. -/
theorem parseDigitsFrom_decimalDigits (fuel n : Nat) (h : n < fuel) :
    parseDigitsFrom 0 (decimalDigits fuel n) = some n := by
  induction fuel generalizing n with
  | zero => omega
  | succ f ih =>
    rw [decimalDigits]
    split_ifs with h1
    · simp [parseDigitsFrom, digitValue_digitChar n h1]
    · rw [parseDigitsFrom_append, ih (n / 10) (by omega),
        digitValue_digitChar (n % 10) (Nat.mod_lt _ (by norm_num))]
      simp only [Option.some_bind, Option.map_some', Option.some.injEq]
      omega


/-- The decimal digits of a number start with a digit. -/
theorem decimalDigits_head (fuel n : Nat) (h : n < fuel) :
    ∃ d rest, d < 10 ∧ decimalDigits fuel n = digitChar d :: rest := by
  induction fuel generalizing n with
  | zero => omega
  | succ f ih =>
    rw [decimalDigits]
    split_ifs with h1
    · exact ⟨n, [], h1, rfl⟩
    · obtain ⟨d, rest, hd, hr⟩ := ih (n / 10) (by omega)
      exact ⟨d, rest ++ [digitChar (n % 10)], hd, by rw [hr]; rfl⟩

/-- The decimal digits of a number hold no white space. -/
theorem decimalDigits_no_space (fuel n : Nat) :
    ∀ c, c ∈ decimalDigits fuel n → isSpace c = false := by
  induction fuel generalizing n with
  | zero => intro c hc; exact absurd hc (List.not_mem_nil c)
  | succ f ih =>
    intro c hc
    rw [decimalDigits] at hc
    split_ifs at hc with h1
    · rw [List.mem_singleton.1 hc]
      exact isSpace_digitChar n h1
    · rcases List.mem_append.1 hc with h2 | h2
      · exact ih _ c h2
      · rw [List.mem_singleton.1 h2]
        exact isSpace_digitChar _ (Nat.mod_lt _ (by norm_num))

/-- Nothing is dropped from a string without white space. -/
theorem dropWhile_isSpace_eq_self (s : List Char) (h : ∀ c, c ∈ s → isSpace c = false) :
    s.dropWhile isSpace = s := by
  cases s with
  | nil => rfl
  | cons a l => rw [List.dropWhile_cons, h a (List.mem_cons_self _ _)]; rfl

/-- A string without white space is its own trimmed string. -/
theorem trimmed_eq_self (s : QString) (h : ∀ c, c ∈ s → isSpace c = false) : trimmed s = s := by
  unfold trimmed
  rw [dropWhile_isSpace_eq_self s h,
    dropWhile_isSpace_eq_self s.reverse (fun c hc => h c (List.mem_reverse.1 hc)),
    List.reverse_reverse]

/-- Reading back a printed unsigned value that fits an `int`. -/
theorem toInt_numberNat (n : Nat) (h : n < 2 ^ 31) : toInt (numberNat n) = (n : Int) := by
  obtain ⟨d, rest, hd, hr⟩ := decimalDigits_head (n + 1) n (Nat.lt_succ_self n)
  have hp := parseDigitsFrom_decimalDigits (n + 1) n (Nat.lt_succ_self n)
  unfold toInt numberNat
  rw [trimmed_eq_self _ (decimalDigits_no_space (n + 1) n)]
  rw [hr, splitSign_digitChar d hd]
  rw [hr] at hp
  simp only [parseDigits, reduceCtorEq, if_false, hp, Bool.false_eq_true, if_pos h]

/-- Reading back a printed `int`. -/
theorem toInt_numberInt (n : Int) (h1 : -2 ^ 31 ≤ n) (h2 : n < 2 ^ 31) :
    toInt (numberInt n) = n := by
  unfold numberInt
  split_ifs with hneg
  · obtain ⟨d, rest, hd, hr⟩ := decimalDigits_head (n.natAbs + 1) n.natAbs (Nat.lt_succ_self _)
    have hp := parseDigitsFrom_decimalDigits (n.natAbs + 1) n.natAbs (Nat.lt_succ_self _)
    have hs : ∀ c, c ∈ '-' :: numberNat n.natAbs → isSpace c = false := by
      intro c hc
      rcases List.mem_cons.1 hc with h | h
      · rw [h]; rfl
      · exact decimalDigits_no_space _ _ c h
    have hsp : splitSign ('-' :: numberNat n.natAbs) = (true, numberNat n.natAbs) := rfl
    unfold toInt
    rw [trimmed_eq_self _ hs, hsp]
    unfold numberNat
    rw [hr] at hp ⊢
    have hle : n.natAbs ≤ 2 ^ 31 := by omega
    simp only [parseDigits, reduceCtorEq, if_false, hp, if_true, if_pos hle]
    omega
  · have hn : (n.natAbs : Int) = n := Int.natAbs_of_nonneg (by omega)
    rw [toInt_numberNat n.natAbs (by omega), hn]



/-! ## The claims on the playlist file -/

/-- What `appendPropertiesToPlaylist` returns, as one equation. -/
theorem appendPropertiesToPlaylist_eq (it : playlistItem) (d : QDomElementYUView) :
    appendPropertiesToPlaylist it d =
      (it, d ++ ("id".toList, numberNat it.id) ::
        (if it.type = playlistItem_Indexed then
          [("startFrame".toList, numberInt it.startEndFrame.first),
           ("endFrame".toList, numberInt it.startEndFrame.second),
           ("sampling".toList, numberInt it.sampling),
           ("frameRate".toList, numberDouble it.frameRate)]
        else
          [("duration".toList, numberDouble it.duration)])) := by
  unfold appendPropertiesToPlaylist appendProperiteChild
  simp only
  split_ifs <;> simp

/-- C3 (the code departs from the claim): the sample item (indexed, id 7, frames 2
to 5, sampling 1, 12.5 frames per second) is written as the properties `7`, `2`,
`5`, `1` and `12.5`; loading them into a newly constructed indexed item restores
the frames, the sampling and the id, but `toInt` fails on `12.5` and the loaded
frame rate is 0. -/
theorem loadPropertiesFromPlaylist_frameRate_lost :
    (appendPropertiesToPlaylist sampleItem []).2 =
      [("id".toList, "7".toList), ("startFrame".toList, "2".toList),
       ("endFrame".toList, "5".toList), ("sampling".toList, "1".toList),
       ("frameRate".toList, "12.5".toList)] ∧
    toInt "12.5".toList = 0 ∧
    loadPropertiesFromPlaylist 1 (appendPropertiesToPlaylist sampleItem []).2
        (playlistItem.ctor sampleConstants "b.yuv".toList playlistItem_Indexed 8).1 =
      some { (playlistItem.ctor sampleConstants "b.yuv".toList playlistItem_Indexed 8).1 with
        playlistID := 7, startEndFrame := ⟨2, 5⟩, sampling := 1, frameRate := 0 } ∧
    sampleItem.frameRate ≠ 0 := by
  decide

/-- The call of `loadPropertiesFromPlaylist` on an item that is not indexed does
not return, whatever the depth allowed. -/
theorem loadPropertiesFromPlaylist_not_indexed (fuel : Nat) (root : QDomElementYUView)
    (it : playlistItem) (h : it.type ≠ playlistItem_Indexed) :
    loadPropertiesFromPlaylist fuel root it = none := by
  induction fuel generalizing it with
  | zero => rfl
  | succ n ih =>
    simp only [loadPropertiesFromPlaylist]
    rw [if_neg h]
    exact ih _ h

/-- C4 (the code departs from the claim): on a static item the function calls
itself with the same arguments after it has stored the duration, so the call
never returns: no depth of calls is enough, for any element and any item. -/
theorem loadPropertiesFromPlaylist_static_never_returns (fuel : Nat)
    (root : QDomElementYUView) (it : playlistItem) :
    loadPropertiesFromPlaylist fuel root { it with type := playlistItem_Static } = none :=
  loadPropertiesFromPlaylist_not_indexed fuel root _ (by simp)

/-! ## The claims on the item tree -/

/-- The destructor loop from counter value `i` leaves the last children: it
removes one child per round and stops as soon as the counter has reached the
number of children left. -/
theorem destructorLoop_remaining (cs : List QTreeWidgetItem) (i : Nat) (deleted : List Nat) :
    (destructorLoop i cs deleted).1 = cs.drop ((cs.length + 1 - i) / 2) := by
  induction cs generalizing i deleted with
  | nil => simp [destructorLoop]
  | cons c rest ih =>
    by_cases h : i < (c :: rest).length
    · rw [destructorLoop, if_pos h, ih]
      simp only [List.length_cons] at h ⊢
      have h1 : (rest.length + 1 + 1 - i) / 2 = (rest.length + 1 - (i + 1)) / 2 + 1 := by omega
      rw [h1, List.drop_succ_cons]
    · rw [destructorLoop, if_neg h]
      simp only [List.length_cons] at h ⊢
      have h1 : (rest.length + 1 + 1 - i) / 2 = 0 := by omega
      rw [h1, List.drop_zero]

/-- C8 (the code departs from the claim): on the three children 2, 4 and 6 of the
sample tree the loop runs twice, hands only the address 2 to `delete` (child 4
is not a playlist item) and finishes with child 6 still in place, so
`childCount()` is 1 and not 0. -/
theorem destructorLoop_leaves_children :
    sampleTree.childCount = 3 ∧
    (destructorLoop 0 sampleTree.children []).1.map QTreeWidgetItem.addr = [6] ∧
    (destructorLoop 0 sampleTree.children []).1.length = 1 ∧
    (destructorLoop 0 sampleTree.children []).2 = [2] := by
  decide

/-- One round of the loop of `getItemAndAllChildren`. -/
theorem getItemAndAllChildren_loop_cons (c : QTreeWidgetItem) (rest : List QTreeWidgetItem) :
    getItemAndAllChildren.loop (c :: rest) =
      (if c.isPlaylistItem then getItemAndAllChildren c else [])
        ++ getItemAndAllChildren.loop rest := by
  cases c with
  | node a b cs => rw [getItemAndAllChildren.loop]; rfl

/-- The loop of `getItemAndAllChildren` concatenates the lists of the children
that are playlist items. -/
theorem getItemAndAllChildren_loop_eq (cs : List QTreeWidgetItem) :
    getItemAndAllChildren.loop cs =
      ((cs.filter QTreeWidgetItem.isPlaylistItem).map getItemAndAllChildren).flatten := by
  induction cs with
  | nil => rw [getItemAndAllChildren.loop]; rfl
  | cons c rest ih =>
    rw [getItemAndAllChildren_loop_cons, ih]
    cases hb : c.isPlaylistItem <;> simp [List.filter, hb]

/-- The list of a child that is a playlist item is part of the loop's result. -/
theorem getItemAndAllChildren_subset_loop (cs : List QTreeWidgetItem) (c : QTreeWidgetItem)
    (hc : c ∈ cs) (hb : c.isPlaylistItem = true) (p : Nat)
    (hp : p ∈ getItemAndAllChildren c) : p ∈ getItemAndAllChildren.loop cs := by
  rw [getItemAndAllChildren_loop_eq]
  exact List.mem_flatten.2 ⟨_, List.mem_map.2 ⟨c, List.mem_filter.2 ⟨hc, hb⟩, rfl⟩, hp⟩

/-- Every node reached through playlist item children is in the result. -/
theorem getItemAndAllChildren_complete (t x : QTreeWidgetItem) (h : Reach t x) :
    x.addr ∈ getItemAndAllChildren t := by
  induction h with
  | self t =>
    cases t with
    | node a b cs => rw [getItemAndAllChildren]; exact List.mem_cons_self _ _
  | @child t c x hc hb _ ih =>
    cases t with
    | node a b cs =>
      rw [getItemAndAllChildren]
      exact List.mem_cons_of_mem _ (getItemAndAllChildren_subset_loop cs c hc hb _ ih)

mutual
/-- Every pointer of the result points to a node reached through playlist item
children. -/
theorem getItemAndAllChildren_sound :
    ∀ (t : QTreeWidgetItem) (p : Nat), p ∈ getItemAndAllChildren t →
      ∃ x, Reach t x ∧ x.addr = p
  | QTreeWidgetItem.node a b cs, p, h => by
    rw [getItemAndAllChildren] at h
    rcases List.mem_cons.1 h with h1 | h1
    · exact ⟨_, Reach.self _, h1.symm⟩
    · obtain ⟨c, hc, hb, x, hx, hp⟩ := getItemAndAllChildren_loop_sound cs p h1
      exact ⟨x, Reach.child hc hb hx, hp⟩
/-- Every pointer the loop collects comes from a child that is a playlist item. -/
theorem getItemAndAllChildren_loop_sound :
    ∀ (cs : List QTreeWidgetItem) (p : Nat), p ∈ getItemAndAllChildren.loop cs →
      ∃ c, c ∈ cs ∧ c.isPlaylistItem = true ∧ ∃ x, Reach c x ∧ x.addr = p
  | [], p, h => by
    rw [getItemAndAllChildren.loop] at h
    exact absurd h (List.not_mem_nil p)
  | QTreeWidgetItem.node a b cs :: rest, p, h => by
    rw [getItemAndAllChildren.loop] at h
    rcases List.mem_append.1 h with h1 | h1
    · cases b with
      | false => exact absurd h1 (List.not_mem_nil p)
      | true =>
        obtain ⟨x, hx, hp⟩ := getItemAndAllChildren_sound (QTreeWidgetItem.node a true cs) p h1
        exact ⟨_, List.mem_cons_self _ _, rfl, x, hx, hp⟩
    · obtain ⟨c, hc, r⟩ := getItemAndAllChildren_loop_sound rest p h1
      exact ⟨c, List.mem_cons_of_mem _ hc, r⟩
end

mutual
/-- The result lists nodes of the tree, in the order of the tree. -/
theorem getItemAndAllChildren_sublist :
    ∀ t : QTreeWidgetItem, (getItemAndAllChildren t).Sublist (allAddrs t)
  | QTreeWidgetItem.node a b cs => by
    rw [getItemAndAllChildren, allAddrs]
    exact (getItemAndAllChildren_loop_sublist cs).cons₂ a
/-- The loop lists nodes of the children, in the order of the children. -/
theorem getItemAndAllChildren_loop_sublist :
    ∀ cs : List QTreeWidgetItem, (getItemAndAllChildren.loop cs).Sublist (allAddrs.list cs)
  | [] => by
    rw [getItemAndAllChildren.loop, allAddrs.list]
  | QTreeWidgetItem.node a b cs :: rest => by
    rw [getItemAndAllChildren.loop, allAddrs.list]
    refine List.Sublist.append ?_ (getItemAndAllChildren_loop_sublist rest)
    cases b with
    | false => exact List.nil_sublist _
    | true => exact getItemAndAllChildren_sublist (QTreeWidgetItem.node a true cs)
end

/-- The addresses of a list of trees, one tree at a time. -/
theorem allAddrs_list_cons (c : QTreeWidgetItem) (rest : List QTreeWidgetItem) :
    allAddrs.list (c :: rest) = allAddrs c ++ allAddrs.list rest := by
  cases c with
  | node a b cs => rw [allAddrs.list]

/-- The addresses of a child are among the addresses of the children. -/
theorem allAddrs_subset_list (cs : List QTreeWidgetItem) (c : QTreeWidgetItem) (hc : c ∈ cs)
    (p : Nat) (hp : p ∈ allAddrs c) : p ∈ allAddrs.list cs := by
  induction cs with
  | nil => exact absurd hc (List.not_mem_nil c)
  | cons d rest ih =>
    rw [allAddrs_list_cons]
    rcases List.mem_cons.1 hc with h | h
    · subst h
      exact List.mem_append_left _ hp
    · exact List.mem_append_right _ (ih h)

/-- When all addresses are distinct, two children that share an address are the
same child. -/
theorem allAddrs_children_disjoint (cs : List QTreeWidgetItem)
    (hn : (allAddrs.list cs).Nodup) (c d : QTreeWidgetItem) (hc : c ∈ cs) (hd : d ∈ cs)
    (p : Nat) (hpc : p ∈ allAddrs c) (hpd : p ∈ allAddrs d) : c = d := by
  induction cs with
  | nil => exact absurd hc (List.not_mem_nil c)
  | cons e rest ih =>
    rw [allAddrs_list_cons] at hn
    have hdis := (List.nodup_append.1 hn).2.2
    rcases List.mem_cons.1 hc with h1 | h1 <;> rcases List.mem_cons.1 hd with h2 | h2
    · rw [h1, h2]
    · subst h1
      exact absurd (allAddrs_subset_list rest d h2 p hpd) (fun h => hdis hpc h)
    · subst h2
      exact absurd (allAddrs_subset_list rest c h1 p hpc) (fun h => hdis hpd h)
    · exact ih (List.nodup_append.1 hn).2.1 h1 h2

/-- C6: `getItemAndAllChildren` is total and returns the pre-order flattening of
the subtree: the item itself first, then, for each child in child order that is
a playlist item, that child's own list.  A pointer is in the result exactly when
it points to a node reached from the item through playlist item children; and
in a tree of distinct objects the result has no pointer twice, every reached node
occurs exactly once, and no node at or below a child that is not a playlist
item occurs.  The tree is an argument that the function only reads. -/
theorem getItemAndAllChildren_preorder (t : QTreeWidgetItem) :
    getItemAndAllChildren t =
      t.addr :: ((t.children.filter QTreeWidgetItem.isPlaylistItem).map
        getItemAndAllChildren).flatten ∧
    (∀ p, p ∈ getItemAndAllChildren t ↔ ∃ x, Reach t x ∧ x.addr = p) ∧
    ((allAddrs t).Nodup →
      (getItemAndAllChildren t).Nodup ∧
      (∀ x, Reach t x → (getItemAndAllChildren t).count x.addr = 1) ∧
      (∀ c, c ∈ t.children → c.isPlaylistItem = false →
        ∀ p, p ∈ allAddrs c → p ∉ getItemAndAllChildren t)) := by
  refine ⟨?_, ?_, ?_⟩
  · cases t with
    | node a b cs => rw [getItemAndAllChildren, getItemAndAllChildren_loop_eq]; rfl
  · intro p
    constructor
    · exact getItemAndAllChildren_sound t p
    · rintro ⟨x, hx, rfl⟩
      exact getItemAndAllChildren_complete t x hx
  · intro hn
    have hnd : (getItemAndAllChildren t).Nodup := (getItemAndAllChildren_sublist t).nodup hn
    refine ⟨hnd, ?_, ?_⟩
    · intro x hx
      exact List.count_eq_one_of_mem hnd (getItemAndAllChildren_complete t x hx)
    · intro c hc hb p hp hmem
      cases t with
      | node a b cs =>
        rw [allAddrs] at hn
        rw [getItemAndAllChildren] at hmem
        have hc1 : c ∈ cs := hc
        rcases List.mem_cons.1 hmem with h1 | h1
        · subst h1
          exact (List.nodup_cons.1 hn).1 (allAddrs_subset_list cs c hc1 p hp)
        · obtain ⟨d, hd, hdb, x, hx, hxp⟩ := getItemAndAllChildren_loop_sound cs p h1
          have hpd : p ∈ allAddrs d := by
            rw [← hxp]
            exact (getItemAndAllChildren_sublist d).subset (getItemAndAllChildren_complete d x hx)
          have hcd := allAddrs_children_disjoint cs (List.nodup_cons.1 hn).2 c d hc1 hd p hp hpd
          rw [hcd, hdb] at hb
          exact absurd hb (by decide)

/-- C6 at the sample tree: the result is 1, 2, 3, 6; the node 3 below the playlist
item 2 occurs exactly once, and the node 5 below the child 4, which is not a
playlist item, does not occur. -/
theorem getItemAndAllChildren_preorder_witness :
    getItemAndAllChildren sampleTree = [1, 2, 3, 6] ∧
    (allAddrs sampleTree).Nodup ∧
    (getItemAndAllChildren sampleTree).count 3 = 1 ∧
    5 ∉ getItemAndAllChildren sampleTree :=
  ⟨by decide, by decide,
   ((getItemAndAllChildren_preorder sampleTree).2.2 (by decide)).2.1
      (QTreeWidgetItem.node 3 true [])
      (Reach.child (List.mem_cons_self _ _) rfl
        (Reach.child (List.mem_cons_self _ _) rfl (Reach.self _))),
   ((getItemAndAllChildren_preorder sampleTree).2.2 (by decide)).2.2
      (QTreeWidgetItem.node 4 false [QTreeWidgetItem.node 5 true []])
      (List.mem_cons_of_mem _ (List.mem_cons_self _ _)) rfl 5 (by decide)⟩


/-- The value that `findChildValue` finds in an element written for an indexed item. -/
theorem findChildValue_written (a b c d e : QString) :
    let root : QDomElementYUView :=
      [("id".toList, a), ("startFrame".toList, b), ("endFrame".toList, c),
       ("sampling".toList, d), ("frameRate".toList, e)]
    findChildValue "id".toList root = a ∧
    findChildValue "startFrame".toList root = b ∧
    findChildValue "endFrame".toList root = c ∧
    findChildValue "sampling".toList root = d ∧
    findChildValue "frameRate".toList root = e := by
  refine ⟨?_, ?_, ?_, ?_, ?_⟩ <;>
    simp [findChildValue, List.find?]

/-- Loading what was saved for an indexed item restores the id, the frames and
the sampling, and gives as frame rate what `toInt` reads from the printed rate. -/
theorem save_load_indexed (saved new : playlistItem)
    (hs : saved.type = playlistItem_Indexed) (hn : new.type = playlistItem_Indexed)
    (hid : saved.id < 2 ^ 31)
    (hf : -2 ^ 31 ≤ saved.startEndFrame.first ∧ saved.startEndFrame.first < 2 ^ 31)
    (he : -2 ^ 31 ≤ saved.startEndFrame.second ∧ saved.startEndFrame.second < 2 ^ 31)
    (hsa : -2 ^ 31 ≤ saved.sampling ∧ saved.sampling < 2 ^ 31) :
    loadPropertiesFromPlaylist 1 (appendPropertiesToPlaylist saved []).2 new =
      some { new with
        playlistID := saved.id,
        startEndFrame := saved.startEndFrame,
        sampling := saved.sampling,
        frameRate := ((toInt (numberDouble saved.frameRate) : Int) : Rat) } := by
  have hw := findChildValue_written (numberNat saved.id) (numberInt saved.startEndFrame.first)
    (numberInt saved.startEndFrame.second) (numberInt saved.sampling)
    (numberDouble saved.frameRate)
  simp only at hw
  rw [appendPropertiesToPlaylist_eq, if_pos hs]
  simp only [loadPropertiesFromPlaylist, List.nil_append, hn, if_true, hw.1, hw.2.1, hw.2.2.1,
    hw.2.2.2.1, hw.2.2.2.2, toInt_numberNat _ hid, toInt_numberInt _ hf.1 hf.2,
    toInt_numberInt _ he.1 he.2, toInt_numberInt _ hsa.1 hsa.2]

/-- Whenever `loadPropertiesFromPlaylist` returns, the frame rate of the item is
the whole number that `toInt` read. -/
theorem loadPropertiesFromPlaylist_frameRate_whole (fuel : Nat) (root : QDomElementYUView)
    (it r : playlistItem) (h : loadPropertiesFromPlaylist fuel root it = some r) :
    r.frameRate = ((toInt (findChildValue "frameRate".toList root) : Int) : Rat) ∧
    r.frameRate.den = 1 := by
  induction fuel generalizing it with
  | zero => simp [loadPropertiesFromPlaylist] at h
  | succ n ih =>
    simp only [loadPropertiesFromPlaylist] at h
    split_ifs at h with h1
    · simp only [Option.some.injEq] at h
      rw [← h]
      exact ⟨rfl, Rat.den_intCast _⟩
    · exact ih _ h

/-- The digits do not depend on the fuel once it exceeds the number. -/
theorem decimalDigits_fuel (f : Nat) : ∀ n, n < f → decimalDigits f n = numberNat n := by
  induction f using Nat.strong_induction_on with
  | _ f ih =>
    intro n hn
    cases f with
    | zero => omega
    | succ g =>
      unfold numberNat
      rw [decimalDigits, decimalDigits]
      split_ifs with h1
      · rfl
      · have h2 : n / 10 < g := by omega
        have h3 : n / 10 < n := by omega
        rw [ih g (Nat.lt_succ_self g) (n / 10) h2, ih n (by omega) (n / 10) h3]

/-- The digits of a number below ten. -/
theorem numberNat_small (n : Nat) (h : n < 10) : numberNat n = [digitChar n] := by
  unfold numberNat
  rw [decimalDigits, if_pos h]

/-- The digits of a number from ten on: the digits of its tenth and its last digit. -/
theorem numberNat_step (n : Nat) (h : 10 ≤ n) :
    numberNat n = numberNat (n / 10) ++ [digitChar (n % 10)] := by
  have h1 : ¬ n < 10 := by omega
  conv_lhs => unfold numberNat
  rw [decimalDigits, if_neg h1, decimalDigits_fuel n (n / 10) (by omega)]

/-- Ten times a positive number has the same digits and one more zero. -/
theorem numberNat_mul_ten (n : Nat) (h : 1 ≤ n) : numberNat (n * 10) = numberNat n ++ ['0'] := by
  rw [numberNat_step (n * 10) (by omega)]
  have h1 : n * 10 / 10 = n := by omega
  have h2 : n * 10 % 10 = 0 := by omega
  rw [h1, h2]
  rfl

/-- A positive number times a power of ten has the same digits and then zeros. -/
theorem numberNat_mul_pow (n k : Nat) (h : 1 ≤ n) :
    numberNat (n * 10 ^ k) = numberNat n ++ List.replicate k '0' := by
  induction k with
  | zero => simp
  | succ k ih =>
    have hp : 1 ≤ n * 10 ^ k := Nat.mul_pos h (pow_pos (by norm_num) k)
    rw [pow_succ, ← Nat.mul_assoc, numberNat_mul_ten _ hp, ih, List.append_assoc,
      List.replicate_succ']

/-- A number is below ten to the number of its digits, and a positive number
is at least ten to one less. -/
theorem numberNat_length_bounds (n : Nat) :
    1 ≤ (numberNat n).length ∧ n < 10 ^ (numberNat n).length ∧
      (1 ≤ n → 10 ^ ((numberNat n).length - 1) ≤ n) := by
  induction n using Nat.strong_induction_on with
  | _ n ih =>
    rcases Nat.lt_or_ge n 10 with h | h
    · rw [numberNat_small n h]
      simp only [List.length_singleton, pow_one, Nat.sub_self, pow_zero]
      exact ⟨le_refl 1, h, fun h1 => h1⟩
    · obtain ⟨h1, h2, h3⟩ := ih (n / 10) (by omega)
      rw [numberNat_step n h]
      simp only [List.length_append, List.length_singleton, Nat.add_sub_cancel]
      refine ⟨by omega, ?_, fun _ => ?_⟩
      · rw [pow_succ]
        omega
      · have h4 := h3 (by omega)
        obtain ⟨j, hj⟩ : ∃ j, (numberNat (n / 10)).length = j + 1 := ⟨_, (Nat.sub_add_cancel h1).symm⟩
        rw [hj] at h4 ⊢
        simp only [Nat.add_sub_cancel] at h4
        rw [pow_succ]
        omega

/-- Zeros only are all stripped. -/
theorem stripTrailingZeros_replicate (k : Nat) : stripTrailingZeros (List.replicate k '0') = [] := by
  unfold stripTrailingZeros
  rw [List.reverse_replicate]
  have h : ∀ j, (List.replicate j '0').dropWhile (fun c => decide (c = '0')) = [] := by
    intro j
    induction j with
    | zero => rfl
    | succ j ih => rw [List.replicate_succ, List.dropWhile_cons]; simp [ih]
  rw [h]
  rfl

/-- Rounding a whole number gives the number. -/
theorem roundHalfEven_one (n : Nat) : roundHalfEven n 1 = n := by
  simp [roundHalfEven, Nat.mod_one]

/-- The decimal exponent of a positive whole number is its number of digits
less one. -/
theorem decimalExponent_whole (n : Nat) (h : 1 ≤ n) :
    decimalExponent n 1 = ((numberNat n).length : Int) - 1 := by
  simp [decimalExponent, h]

/-- A whole number below a million is printed as a `double` like an integer. -/
theorem numberDouble_whole (n : Nat) (h : n < 10 ^ 6) :
    numberDouble ((n : Int) : Rat) = numberNat n := by
  rcases Nat.eq_zero_or_pos n with h0 | h0
  · subst h0
    rfl
  · obtain ⟨hl1, hl2, hl3⟩ := numberNat_length_bounds n
    have hl4 := hl3 h0
    have hL : (numberNat n).length ≤ 6 := by
      by_contra hc
      have : 10 ^ 6 ≤ 10 ^ ((numberNat n).length - 1) :=
        Nat.pow_le_pow_right (by norm_num) (by omega)
      omega
    obtain ⟨L, hLdef⟩ : ∃ L, (numberNat n).length = L := ⟨_, rfl⟩
    rw [hLdef] at hl1 hl2 hL
    have hnum : (((n : Int) : Rat)).num = (n : Int) := Rat.num_intCast _
    have hden : (((n : Int) : Rat)).den = 1 := Rat.den_intCast _
    have hn0 : ¬ ((n : Int) = 0) := by omega
    have hneg : ¬ ((n : Int) < 0) := by omega
    have he5 : ((L : Int) - 1) ≤ 5 := by omega
    have ht : (5 - ((L : Int) - 1)).toNat = 6 - L := by omega
    have hm : n * 10 ^ (6 - L) < 10 ^ 6 := by
      calc n * 10 ^ (6 - L) < 10 ^ L * 10 ^ (6 - L) :=
            Nat.mul_lt_mul_of_pos_right hl2 (pow_pos (by norm_num) _)
        _ = 10 ^ 6 := by rw [← pow_add]; congr 1; omega
    have hm' : ¬ (n * 10 ^ (6 - L) = 10 ^ 6) := by omega
    have hb1 : ¬ ((L : Int) - 1 < -4 ∨ (L : Int) - 1 ≥ 6) := by omega
    have hb2 : (L : Int) - 1 ≥ 0 := by omega
    have ht2 : ((L : Int) - 1).toNat + 1 = L := by omega
    unfold numberDouble
    rw [hnum, hden]
    simp only [hn0, if_false, Int.natAbs_ofNat, decimalExponent_whole n h0, hLdef, he5, if_true,
      ht, roundHalfEven_one, hm', hb1, hb2, ht2, hneg, numberNat_mul_pow n (6 - L) h0]
    rw [← hLdef, List.drop_left, List.take_left, stripTrailingZeros_replicate]
    simp

/-- Reading back a printed whole number below a million with `toInt`. -/
theorem toInt_numberDouble_whole (n : Nat) (h : n < 10 ^ 6) :
    toInt (numberDouble ((n : Int) : Rat)) = (n : Int) := by
  rw [numberDouble_whole n h, toInt_numberNat n (by omega)]

/-! ## Further properties -/

/-- Without controls, or with `emitSignal` false, `setStartEndFrame` stores the
requested range cut at the limits: the start is never below the lower limit and
the end never above the upper limit, and when the limits are ordered and the
request overlaps them, both lie within the limits. -/
theorem setStartEndFrame_clamps_overlapping (g : playlistItem → indexRange)
    (range : indexRange) (e : Bool) (it : playlistItem) (h : it.ui = none ∨ e = false) :
    (setStartEndFrame g range e it).startEndFrame
        = ⟨max (g it).first range.first, min (g it).second range.second⟩ ∧
    (g it).first ≤ (setStartEndFrame g range e it).startEndFrame.first ∧
    (setStartEndFrame g range e it).startEndFrame.second ≤ (g it).second ∧
    ((g it).first ≤ (g it).second → range.first ≤ (g it).second →
      (setStartEndFrame g range e it).startEndFrame.first ≤ (g it).second) ∧
    ((g it).first ≤ (g it).second → (g it).first ≤ range.second →
      (g it).first ≤ (setStartEndFrame g range e it).startEndFrame.second) := by
  have hs : (setStartEndFrame g range e it).startEndFrame
      = ⟨max (g it).first range.first, min (g it).second range.second⟩ := by
    rcases h with h | h
    · simp [setStartEndFrame, h]
    · rw [h]
      exact (setStartEndFrame_false_fields g range it).1
  rw [hs]
  refine ⟨rfl, le_max_left _ _, min_le_left _ _, ?_, ?_⟩
  · intro h1 h2
    exact max_le h1 h2
  · intro h1 h2
    exact le_min h1 h2

/-- The clamping at a concrete request: with limits 0 to 10 the request (-3, 7)
is stored as (0, 7). -/
theorem setStartEndFrame_clamps_overlapping_witness :
    (setStartEndFrame sampleLimits ⟨-3, 7⟩ false
      { sampleItem with ui := some sampleControls }).startEndFrame = ⟨0, 7⟩ :=
  (setStartEndFrame_clamps_overlapping sampleLimits ⟨-3, 7⟩ false
    { sampleItem with ui := some sampleControls } (Or.inr rfl)).1

/-- With `emitSignal` true the writes to the spin boxes do invoke the slot: on
the sample item with controls the start spin box changes its value, the slot
runs with the start spin box as sender, marks the range as changed by the user
and `signalItemChanged` is emitted. -/
theorem setStartEndFrame_emitSignal_invokes_slot :
    Event.slotVideoControlChangedCalled Widget.startSpinBox ∈
      (setStartEndFrame sampleLimits ⟨3, 4⟩ true
        { sampleItem with ui := some sampleControls }).log ∧
    Event.signalItemChanged false false ∈
      (setStartEndFrame sampleLimits ⟨3, 4⟩ true
        { sampleItem with ui := some sampleControls }).log ∧
    (setStartEndFrame sampleLimits ⟨3, 4⟩ true
      { sampleItem with ui := some sampleControls }).startEndFrameChanged = true := by
  decide

/-- The destructor loop removes the first half of the children, rounded up, and
leaves the other `n / 2` of `n` children in place. -/
theorem destructorLoop_leaves_half (cs : List QTreeWidgetItem) :
    (destructorLoop 0 cs []).1 = cs.drop ((cs.length + 1) / 2) ∧
    (destructorLoop 0 cs []).1.length = cs.length / 2 := by
  have h := destructorLoop_remaining cs 0 []
  simp only [Nat.sub_zero] at h
  refine ⟨h, ?_⟩
  rw [h, List.length_drop]
  omega

/-- Save and load of an indexed item with a whole frame rate below a million (so
every whole rate from 0 to 1000 that the rate spin box holds) and with id,
frames and sampling in the range of `int`: the loaded item has the
saved frames, sampling and frame rate, the saved id as `playlistID`, and its
other members, its own id among them, as before. -/
theorem save_load_whole_frameRate (saved new : playlistItem) (n : Nat)
    (hs : saved.type = playlistItem_Indexed) (hn : new.type = playlistItem_Indexed)
    (hid : saved.id < 2 ^ 31)
    (hf : -2 ^ 31 ≤ saved.startEndFrame.first ∧ saved.startEndFrame.first < 2 ^ 31)
    (he : -2 ^ 31 ≤ saved.startEndFrame.second ∧ saved.startEndFrame.second < 2 ^ 31)
    (hsa : -2 ^ 31 ≤ saved.sampling ∧ saved.sampling < 2 ^ 31)
    (hr : saved.frameRate = ((n : Int) : Rat)) (hn6 : n < 10 ^ 6) :
    loadPropertiesFromPlaylist 1 (appendPropertiesToPlaylist saved []).2 new =
      some { new with
        playlistID := saved.id,
        startEndFrame := saved.startEndFrame,
        sampling := saved.sampling,
        frameRate := saved.frameRate } := by
  rw [save_load_indexed saved new hs hn hid hf he hsa, hr, toInt_numberDouble_whole n hn6]

/-- Save and load at a concrete item: the sample item with 25 frames per second. -/
theorem save_load_whole_frameRate_witness :
    loadPropertiesFromPlaylist 1
        (appendPropertiesToPlaylist { sampleItem with frameRate := ((25 : Nat) : Int) } []).2
        (playlistItem.ctor sampleConstants "b.yuv".toList playlistItem_Indexed 8).1 =
      some { (playlistItem.ctor sampleConstants "b.yuv".toList playlistItem_Indexed 8).1 with
        playlistID := 7, startEndFrame := ⟨2, 5⟩, sampling := 1,
        frameRate := ((25 : Nat) : Int) } :=
  save_load_whole_frameRate { sampleItem with frameRate := ((25 : Nat) : Int) }
    (playlistItem.ctor sampleConstants "b.yuv".toList playlistItem_Indexed 8).1 25
    rfl rfl (by decide) (by decide) (by decide) (by decide) rfl (by decide)

/-- A frame rate that is not a whole number is never restored: whatever the
element holds and whatever item is loaded, the loaded frame rate is a whole
number, so it differs from every fractional rate. -/
theorem loadPropertiesFromPlaylist_fractional_frameRate_lost (fuel : Nat)
    (root : QDomElementYUView) (it r : playlistItem) (x : Rat)
    (h : loadPropertiesFromPlaylist fuel root it = some r) (hx : x.den ≠ 1) :
    r.frameRate ≠ x := by
  intro hrx
  rw [← hrx] at hx
  exact hx (loadPropertiesFromPlaylist_frameRate_whole fuel root it r h).2

/-- The loss at the sample item: 12.5 frames per second are not restored. -/
theorem loadPropertiesFromPlaylist_fractional_frameRate_lost_witness :
    loadPropertiesFromPlaylist 1 (appendPropertiesToPlaylist sampleItem []).2 sampleItem
        = some { sampleItem with playlistID := 7, frameRate := 0 } ∧
      ({ sampleItem with playlistID := 7, frameRate := 0 } : playlistItem).frameRate
        ≠ mkRat 25 2 :=
  ⟨by decide,
   loadPropertiesFromPlaylist_fractional_frameRate_lost 1
    (appendPropertiesToPlaylist sampleItem []).2 sampleItem
    { sampleItem with playlistID := 7, frameRate := 0 } (mkRat 25 2) (by decide) (by decide)⟩

/-! ## Lemmas on texts of digits -/

/-- The empty text is a text of digits. -/
theorem IsDigits.nil : IsDigits [] := fun c hc => absurd hc (List.not_mem_nil c)

/-- Two texts of digits make one. -/
theorem IsDigits.append {l1 l2 : List Char} (h1 : IsDigits l1) (h2 : IsDigits l2) :
    IsDigits (l1 ++ l2) := by
  intro c hc
  rcases List.mem_append.1 hc with h | h
  · exact h1 c h
  · exact h2 c h

/-- A part of a text of digits is one. -/
theorem IsDigits.subset {l1 l2 : List Char} (h2 : IsDigits l2) (hs : ∀ c, c ∈ l1 → c ∈ l2) :
    IsDigits l1 := fun c hc => h2 c (hs c hc)

/-- Zeros are digits. -/
theorem IsDigits.replicate (k : Nat) : IsDigits (List.replicate k '0') := by
  intro c hc
  exact ⟨0, by norm_num, List.eq_of_mem_replicate hc⟩

/-- The digits of a number are digits. -/
theorem IsDigits.decimalDigits (fuel n : Nat) : IsDigits (decimalDigits fuel n) := by
  induction fuel generalizing n with
  | zero => intro c hc; exact absurd hc (List.not_mem_nil c)
  | succ f ih =>
    intro c hc
    rw [YUView.decimalDigits] at hc
    split_ifs at hc with h1
    · exact ⟨n, h1, List.mem_singleton.1 hc⟩
    · rcases List.mem_append.1 hc with h2 | h2
      · exact ih _ c h2
      · exact ⟨n % 10, Nat.mod_lt _ (by norm_num), List.mem_singleton.1 h2⟩

end YUView
